import Mathlib

/-!
Verification of the lyric-selection core of the karaoke-game backend
(`python-backend/app.py`): `count_words`, `extract_specific_lyric`,
`extract_lyric_to_guess` and the dispatch performed by the `get_lyrics`
route.  A lyrics dataframe is modelled as a list of rows; the
`word_count` column, which the code adds to the dataframe in place, is
modelled as an optional field of each row (absent = column not present).
-/

namespace Noplp

/-- One row of the lyrics dataframe: columns `startTimeMs`, `words`, and the
optional derived column `word_count`. -/
structure Row where
  startTimeMs : Int
  words : String
  word_count : Option Nat := none
deriving DecidableEq

/-- The apostrophe character, i.e. the first argument of the
`x.replace("'", " ")` call in `count_words`. -/
def apostrophe : Char := Char.ofNat 39

/-- Python single-character `str.replace(a, b)`: replace every occurrence of
the character `a` by the character `b`. -/
def pyReplace (a b : Char) (s : List Char) : List Char :=
  s.map fun c => if c = a then b else c

/-- Python `str.split()` with no argument: split on runs of whitespace and
drop the empty chunks. -/
def pySplit (s : List Char) : List (List Char) :=
  (s.splitOnP fun c => c.isWhitespace).filter fun t => ¬ t = []

/-- `count_words` from `app.py`, applied to a single line:
`len(x.replace("'", " ").replace("-", " ").split())`. -/
def count_words (s : String) : Nat :=
  (pySplit (pyReplace '-' ' ' (pyReplace apostrophe ' ' s.data))).length

/-- `df['word_count'] = count_words(df['words'])`: the in-place assignment of
the `word_count` column. -/
def setWordCount (df : List Row) : List Row :=
  df.map fun r => { r with word_count := some (count_words r.words) }

/-- `MAX_RECURSION_DEPTH = 5` from `app.py`. -/
def MAX_RECURSION_DEPTH : Nat := 5

/-- `min_song_duration = 20000` from `extract_lyric_to_guess`. -/
def min_song_duration : Int := 20000

/-- The comparison `df_reduced['word_count'] == words_to_guess` on one row
(the column holds Python ints; the requested count may be any int). -/
def wcMatches (r : Row) (k : Int) : Bool :=
  match r.word_count with
  | some n => ((n : Int) == k)
  | none => false

/-- The candidate set of `extract_lyric_to_guess`:
`df_reduced = df[df["startTimeMs"] > min_song_duration]` followed by
`guess_candidates = df_reduced[df_reduced['word_count'] == words_to_guess]`. -/
def guessCandidates (df : List Row) (k : Int) : List Row :=
  ((df.filter fun r => min_song_duration < r.startTimeMs).filter
    fun r => wcMatches r k)

/-- `guess_candidates.sample(1)`: one uniformly random row.  The randomness is
modelled by the oracle `pick`; any row of a non-empty list can be produced by
a suitable `pick`. -/
def sample (l : List Row) (pick : Nat) : List Row :=
  (l.drop (pick % l.length)).take 1

/-- `extract_lyric_to_guess(df, words_to_guess, recursion_depth)` from
`app.py`.  The Python function mutates `df` (the `word_count` column) and
returns `(selection, effective_count)`; the model returns the mutated
dataframe as the first component and `(selection, effective_count)` as the
second.  `pick` is the randomness oracle consumed by `sample`. -/
def extract_lyric_to_guess (df : List Row) (words_to_guess : Int)
    (recursion_depth : Nat) (pick : Nat) : List Row × (List Row × Int) :=
  if MAX_RECURSION_DEPTH ≤ recursion_depth then
    (df, (df.take 1, 1))
  else
    let df2 := setWordCount df
    let guess_candidates := guessCandidates df2 words_to_guess
    if guess_candidates.isEmpty then
      if words_to_guess == 1 then
        (df2, (df2.take 1, 1))
      else
        extract_lyric_to_guess df2 (words_to_guess - 1) (recursion_depth + 1) pick
    else
      (df2, (sample guess_candidates pick, words_to_guess))
termination_by MAX_RECURSION_DEPTH - recursion_depth
decreasing_by simp [MAX_RECURSION_DEPTH] at *; omega

/-- The number of recursive calls (failed attempts) `extract_lyric_to_guess`
performs from a given starting state; mirrors its branch structure. -/
def countAttempts (df : List Row) (words_to_guess : Int)
    (recursion_depth : Nat) : Nat :=
  if MAX_RECURSION_DEPTH ≤ recursion_depth then 0
  else
    let df2 := setWordCount df
    let guess_candidates := guessCandidates df2 words_to_guess
    if guess_candidates.isEmpty then
      if words_to_guess == 1 then 0
      else 1 + countAttempts df2 (words_to_guess - 1) (recursion_depth + 1)
    else 0
termination_by MAX_RECURSION_DEPTH - recursion_depth
decreasing_by simp [MAX_RECURSION_DEPTH] at *; omega

/-- The distance used by `(df['startTimeMs'] - lyric_time).abs()`. -/
def dist (r : Row) (t : Int) : Nat := (r.startTimeMs - t).natAbs

/-- `(df['startTimeMs'] - lyric_time).abs().idxmin()` followed by
`df.iloc[[closest_idx]]`: the first row minimising the absolute distance to
`t` (pandas `idxmin` returns the first index attaining the minimum);
`none` on an empty dataframe (pandas raises there). -/
def idxminAbs (t : Int) : List Row → Option Row
  | [] => none
  | r :: rs =>
    match idxminAbs t rs with
    | none => some r
    | some b => if dist b t < dist r t then some b else some r

/-- The `'word_count' not in df_filtered.columns` test.  Column presence is a
dataframe-level property; with the column modelled per row it holds exactly
when every row carries a value (the dataframes the program builds either
annotate all rows or none). -/
def hasWordCountColumn (df : List Row) : Bool :=
  df.all fun r => r.word_count.isSome

/-- `extract_specific_lyric(df, lyric_time)` from `app.py`: exact-match rows
if any, otherwise the nearest row by absolute distance; then the first
selected row's `word_count` (computing the column if absent).  `none` models
the exceptions pandas raises on an empty dataframe. -/
def extract_specific_lyric (df : List Row) (lyric_time : Int) :
    Option (List Row × Nat) :=
  let df_filtered := df.filter fun r => r.startTimeMs == lyric_time
  let sel? : Option (List Row) :=
    if df_filtered.isEmpty then (idxminAbs lyric_time df).map (fun r => [r])
    else some df_filtered
  match sel? with
  | none => none
  | some sel0 =>
    let sel := if hasWordCountColumn sel0 then sel0 else setWordCount sel0
    match sel.head? with
    | none => none
    | some h =>
      match h.word_count with
      | some n => some (sel, n)
      | none => none

/-- The selection dispatch of the `get_lyrics` route (and of
`get_lyrics_internal`), for a song whose stored transcript is `df`:
the `specific_lyric_time` branch, the `words_to_guess == 0` branch, and the
`extract_lyric_to_guess` call wrapped in `try/except` whose handler
substitutes `(df.iloc[:1], 1)`.  `selector_error` is the oracle deciding
whether that call raises; `.error` models the paths on which the route
reports a failure instead of a selection. -/
def get_lyrics_select (df : List Row) (specific_lyric_time : Option Int)
    (words_to_guess : Int) (pick : Nat) (selector_error : Bool) :
    Except String (List Row × Int) :=
  if df.isEmpty then .error "No lyrics found"
  else
    match specific_lyric_time with
    | some t =>
      match extract_specific_lyric df t with
      | some (sel, n) => .ok (sel, (n : Int))
      | none => .error "extract_specific_lyric raised"
    | none =>
      if words_to_guess == 0 then .ok ([], 0)
      else if selector_error then .ok (df.take 1, 1)
      else .ok (extract_lyric_to_guess df words_to_guess 0 pick).2

/-- The transcript content proper of a dataframe: the `startTimeMs` and
`words` columns, in order, without the derived `word_count` column. -/
def proj (df : List Row) : List (Int × String) :=
  df.map fun r => (r.startTimeMs, r.words)

/-- Spec-side word counter, written independently of the code's
replace-then-split pipeline: map apostrophes and hyphens to spaces
character by character, then count the maximal runs of non-whitespace
characters with an explicit in-a-word/between-words accumulator. -/
def tokenCountAux : Bool → List Char → Nat
  | _, [] => 0
  | inWord, c :: cs =>
    if c.isWhitespace then tokenCountAux false cs
    else (if inWord then 0 else 1) + tokenCountAux true cs

/-- Spec-side restatement of the Word Counter contract: the number of
whitespace-delimited tokens after replacing every apostrophe and hyphen by a
space. -/
def wordCount_spec (s : String) : Nat :=
  tokenCountAux false
    (s.data.map fun c => if c = apostrophe ∨ c = '-' then ' ' else c)

/-! ### Basic lemmas about the embedded operations -/

lemma sample_eq_singleton (l : List Row) (pick : Nat) (h : l ≠ []) :
    ∃ c, sample l pick = [c] ∧ c ∈ l := by
  have hlen : 0 < l.length := List.length_pos.mpr h
  have hi : pick % l.length < l.length := Nat.mod_lt _ hlen
  refine ⟨l[pick % l.length], ?_, List.getElem_mem hi⟩
  unfold sample
  rw [List.drop_eq_getElem_cons hi]
  rfl

lemma proj_setWordCount (df : List Row) : proj (setWordCount df) = proj df := by
  simp [proj, setWordCount, List.map_map]

lemma setWordCount_ne_nil (df : List Row) (h : df ≠ []) : setWordCount df ≠ [] := by
  simpa [setWordCount] using h

lemma take_one_ne_nil (df : List Row) (h : df ≠ []) : df.take 1 ≠ [] := by
  cases df with
  | nil => exact absurd rfl h
  | cons r rs => simp

lemma mem_setWordCount {r : Row} {df : List Row} (h : r ∈ setWordCount df) :
    r.word_count = some (count_words r.words) := by
  simp only [setWordCount, List.mem_map] at h
  obtain ⟨r0, -, rfl⟩ := h
  rfl

lemma mem_guessCandidates {r : Row} {df : List Row} {k : Int} :
    r ∈ guessCandidates df k ↔
      r ∈ df ∧ min_song_duration < r.startTimeMs ∧ wcMatches r k = true := by
  simp only [guessCandidates, List.mem_filter, decide_eq_true_eq]
  tauto

lemma wcMatches_count {r : Row} {k : Int} (hm : wcMatches r k = true)
    (hw : r.word_count = some (count_words r.words)) :
    (count_words r.words : Int) = k := by
  unfold wcMatches at hm
  rw [hw] at hm
  exact eq_of_beq hm

/-! ### Unfolding lemmas for `extract_lyric_to_guess` -/

lemma extract_cap (df : List Row) (k : Int) (d pick : Nat)
    (h : MAX_RECURSION_DEPTH ≤ d) :
    extract_lyric_to_guess df k d pick = (df, (df.take 1, 1)) := by
  rw [extract_lyric_to_guess.eq_def]
  simp [h]

lemma extract_found (df : List Row) (k : Int) (d pick : Nat)
    (h : ¬ MAX_RECURSION_DEPTH ≤ d)
    (hc : ¬ (guessCandidates (setWordCount df) k).isEmpty = true) :
    extract_lyric_to_guess df k d pick =
      (setWordCount df, (sample (guessCandidates (setWordCount df) k) pick, k)) := by
  rw [extract_lyric_to_guess.eq_def]
  simp [h, hc]

lemma extract_empty_base (df : List Row) (d pick : Nat)
    (h : ¬ MAX_RECURSION_DEPTH ≤ d)
    (hc : (guessCandidates (setWordCount df) 1).isEmpty = true) :
    extract_lyric_to_guess df 1 d pick =
      (setWordCount df, ((setWordCount df).take 1, 1)) := by
  rw [extract_lyric_to_guess.eq_def]
  simp [h, hc]

lemma extract_empty_step (df : List Row) (k : Int) (d pick : Nat)
    (h : ¬ MAX_RECURSION_DEPTH ≤ d)
    (hc : (guessCandidates (setWordCount df) k).isEmpty = true)
    (hk : k ≠ 1) :
    extract_lyric_to_guess df k d pick =
      extract_lyric_to_guess (setWordCount df) (k - 1) (d + 1) pick := by
  rw [extract_lyric_to_guess.eq_def]
  simp [h, hc, hk]

/-! ### Invariants of `extract_lyric_to_guess`, by functional induction -/

lemma eq_nil_of_isEmpty {l : List Row} (h : l.isEmpty = true) : l = [] := by
  cases l with
  | nil => rfl
  | cons a t => simp at h

lemma ne_nil_of_not_isEmpty {l : List Row} (h : ¬ l.isEmpty = true) : l ≠ [] := by
  cases l with
  | nil => simp at h
  | cons a t => simp

lemma extract_sel_ne_nil (df : List Row) (k : Int) (d pick : Nat)
    (hdf : df ≠ []) : (extract_lyric_to_guess df k d pick).2.1 ≠ [] := by
  induction df, k, d, pick using extract_lyric_to_guess.induct with
  | case1 df k d pick h =>
    rw [extract_cap df k d pick h]
    exact take_one_ne_nil df hdf
  | case2 df k d pick h df2 gc hc hk =>
    have hk1 : k = 1 := eq_of_beq hk
    subst hk1
    rw [extract_empty_base df d pick h hc]
    exact take_one_ne_nil _ (setWordCount_ne_nil df hdf)
  | case3 df k d pick h df2 gc hc hk ih =>
    have hk1 : k ≠ 1 := fun e => hk (by simp [e])
    have ih1 : setWordCount df ≠ [] →
        (extract_lyric_to_guess (setWordCount df) (k - 1) (d + 1) pick).2.1 ≠ [] := ih
    rw [extract_empty_step df k d pick h hc hk1]
    exact ih1 (setWordCount_ne_nil df hdf)
  | case4 df k d pick h df2 gc hc =>
    rw [extract_found df k d pick h hc]
    have hcne : guessCandidates (setWordCount df) k ≠ [] := ne_nil_of_not_isEmpty hc
    obtain ⟨c, hcs, -⟩ := sample_eq_singleton _ pick hcne
    simp [hcs]

lemma extract_threshold_or_fallback (df : List Row) (k : Int) (d pick : Nat) :
    (∀ r ∈ (extract_lyric_to_guess df k d pick).2.1,
        min_song_duration < r.startTimeMs) ∨
      (extract_lyric_to_guess df k d pick).2 =
        ((extract_lyric_to_guess df k d pick).1.take 1, 1) := by
  induction df, k, d, pick using extract_lyric_to_guess.induct with
  | case1 df k d pick h =>
    right
    rw [extract_cap df k d pick h]
  | case2 df k d pick h df2 gc hc hk =>
    have hk1 : k = 1 := eq_of_beq hk
    subst hk1
    right
    rw [extract_empty_base df d pick h hc]
  | case3 df k d pick h df2 gc hc hk ih =>
    have hk1 : k ≠ 1 := fun e => hk (by simp [e])
    rw [extract_empty_step df k d pick h hc hk1]
    exact ih
  | case4 df k d pick h df2 gc hc =>
    left
    rw [extract_found df k d pick h hc]
    intro r hr
    have hcne : guessCandidates (setWordCount df) k ≠ [] := ne_nil_of_not_isEmpty hc
    have hrc : r ∈ guessCandidates (setWordCount df) k := by
      obtain ⟨c, hcs, hcm⟩ := sample_eq_singleton _ pick hcne
      rw [hcs] at hr
      simp at hr
      exact hr ▸ hcm
    exact (mem_guessCandidates.mp hrc).2.1

lemma countAttempts_le (df : List Row) (k : Int) (d : Nat) :
    countAttempts df k d ≤ MAX_RECURSION_DEPTH - d := by
  induction df, k, d using countAttempts.induct with
  | case1 df k d h =>
    rw [countAttempts.eq_def]
    simp [h]
  | case2 df k d h df2 gc hc hk =>
    rw [countAttempts.eq_def]
    simp [h, eq_nil_of_isEmpty hc, eq_of_beq hk]
  | case3 df k d h df2 gc hc hk ih =>
    have hk1 : ¬ k = 1 := fun e => hk (by simp [e])
    have hc1 : (guessCandidates (setWordCount df) k).isEmpty = true := hc
    have ih1 : countAttempts (setWordCount df) (k - 1) (d + 1) ≤
        MAX_RECURSION_DEPTH - (d + 1) := ih
    have hd : d < MAX_RECURSION_DEPTH := Nat.lt_of_not_le h
    rw [countAttempts.eq_def]
    simp only [if_neg h, hc1, if_true, beq_iff_eq, if_neg hk1]
    simp only [MAX_RECURSION_DEPTH] at ih1 hd ⊢
    omega
  | case4 df k d h df2 gc hc =>
    rw [countAttempts.eq_def]
    have : ¬ guessCandidates (setWordCount df) k = [] := ne_nil_of_not_isEmpty hc
    simp [h, this]

/-! ### The word counter agrees with its spec-side restatement -/

lemma pySplit_length (l : List Char) :
    (pySplit l).length = tokenCountAux false l ∧
      (((l.splitOnP fun c => c.isWhitespace).tail.filter fun t => ¬ t = []).length
        = tokenCountAux true l) := by
  induction l with
  | nil =>
    constructor
    · simp [pySplit, List.splitOnP_nil, tokenCountAux]
    · simp [List.splitOnP_nil, tokenCountAux]
  | cons c cs ih =>
    obtain ⟨ihP, ihQ⟩ := ih
    by_cases hw : c.isWhitespace
    · constructor
      · simp only [pySplit, List.splitOnP_cons, hw, if_true, tokenCountAux]
        simp only [pySplit] at ihP
        simpa using ihP
      · simp only [List.splitOnP_cons, hw, if_true, tokenCountAux, List.tail_cons]
        simp only [pySplit] at ihP
        exact ihP
    · obtain ⟨h0, tl, hsp⟩ := List.exists_cons_of_ne_nil
        (List.splitOnP_ne_nil (fun c => c.isWhitespace) cs)
      constructor
      · simp only [pySplit, List.splitOnP_cons, hw, if_false, hsp, List.modifyHead,
          tokenCountAux]
        simp only [hsp, List.tail_cons] at ihQ
        simp [decide_not] at ihQ ⊢
        simp [hw, ihQ]
        omega
      · simp only [List.splitOnP_cons, hw, if_false, hsp, List.modifyHead,
          List.tail_cons, tokenCountAux]
        simp only [hsp, List.tail_cons] at ihQ
        simp [decide_not] at ihQ ⊢
        simp [hw, ihQ]

lemma count_words_eq_spec (s : String) : count_words s = wordCount_spec s := by
  unfold count_words wordCount_spec
  have hmap : pyReplace '-' ' ' (pyReplace apostrophe ' ' s.data) =
      s.data.map fun c => if c = apostrophe ∨ c = '-' then ' ' else c := by
    unfold pyReplace
    rw [List.map_map]
    apply List.map_congr_left
    intro c _
    by_cases h1 : c = apostrophe
    · subst h1
      decide
    · by_cases h2 : c = '-'
      · subst h2
        decide
      · simp [h1, h2]
  rw [hmap]
  exact (pySplit_length _).1

/-! ### Nearest-row search of `extract_specific_lyric` -/

lemma idxminAbs_spec (t : Int) (df : List Row) (hne : df ≠ []) :
    ∃ b pre post, idxminAbs t df = some b ∧ df = pre ++ b :: post ∧
      (∀ x ∈ df, dist b t ≤ dist x t) ∧ (∀ x ∈ pre, dist b t < dist x t) := by
  induction df with
  | nil => exact absurd rfl hne
  | cons r rs ih =>
    cases rs with
    | nil =>
      refine ⟨r, [], [], rfl, rfl, ?_, ?_⟩
      · intro x hx
        have hx1 : x = r := by simpa using hx
        subst hx1
        exact le_refl _
      · intro x hx
        simp at hx
    | cons r1 rs1 =>
      obtain ⟨b, pre, post, hb, hsplit, hmin, hfirst⟩ := ih (by simp)
      have hstep : idxminAbs t (r :: r1 :: rs1) =
          if dist b t < dist r t then some b else some r := by
        rw [idxminAbs.eq_2, hb]
      by_cases hlt : dist b t < dist r t
      · rw [if_pos hlt] at hstep
        refine ⟨b, r :: pre, post, hstep, by simp [hsplit], ?_, ?_⟩
        · intro x hx
          rcases List.mem_cons.mp hx with rfl | hx'
          · exact le_of_lt hlt
          · exact hmin x hx'
        · intro x hx
          rcases List.mem_cons.mp hx with rfl | hx'
          · exact hlt
          · exact hfirst x hx'
      · rw [if_neg hlt] at hstep
        push_neg at hlt
        refine ⟨r, [], r1 :: rs1, hstep, rfl, ?_, ?_⟩
        · intro x hx
          rcases List.mem_cons.mp hx with rfl | hx'
          · exact le_refl _
          · exact le_trans hlt (hmin x hx')
        · intro x hx
          simp at hx

/-! ### Concrete transcripts used by the witnesses -/

def wdf1 : List Row := [{ startTimeMs := 25000, words := "alpha beta gamma" }]

def wdf2 : List Row := [{ startTimeMs := 1000, words := "hello world" }]

def wdf3 : List Row := [{ startTimeMs := 1000, words := "ab cd" }]

def wdf6 : List Row :=
  [{ startTimeMs := 1000, words := "a b" },
   { startTimeMs := 5000, words := "c" },
   { startTimeMs := 9000, words := "d e f" }]

def wdf7 : List Row := [{ startTimeMs := 0, words := "a" }]

def wdf8 : List Row := [{ startTimeMs := 30000, words := "un deux trois" }]

/-- The string `j'aime` from the spec example. -/
def jaime : String := ⟨['j', apostrophe, 'a', 'i', 'm', 'e']⟩

/-- The string `j'aime-toi` from the spec example. -/
def jaimeToi : String := ⟨['j', apostrophe, 'a', 'i', 'm', 'e', '-', 't', 'o', 'i']⟩

/-! ### The claims -/

/-- C1: for every transcript and every target word count `k ≥ 1`, whenever the
set of lines with `startTimeMs > 20000` whose word count equals exactly `k` is
non-empty, `extract_lyric_to_guess` (entered at recursion depth 0) returns a
single line that is a member of that exact-match set — its word count equals
`k`, neither greater nor smaller — together with effective word count `k`. -/
theorem selectGuessLine_exact_match (df : List Row) (k : Int) (pick : Nat)
    (hk : 1 ≤ k)
    (hne : guessCandidates (setWordCount df) k ≠ []) :
    ∃ c, (extract_lyric_to_guess df k 0 pick).2 = ([c], k) ∧
      c ∈ guessCandidates (setWordCount df) k ∧
      min_song_duration < c.startTimeMs ∧
      (count_words c.words : Int) = k := by
  have h0 : ¬ MAX_RECURSION_DEPTH ≤ 0 := by decide
  have hcne : ¬ (guessCandidates (setWordCount df) k).isEmpty = true :=
    fun hemp => hne (eq_nil_of_isEmpty hemp)
  obtain ⟨c, hcs, hcm⟩ := sample_eq_singleton _ pick hne
  have hmem := mem_guessCandidates.mp hcm
  refine ⟨c, ?_, hcm, hmem.2.1,
    wcMatches_count hmem.2.2 (mem_setWordCount hmem.1)⟩
  rw [extract_found df k 0 pick h0 hcne, hcs]

theorem selectGuessLine_exact_match_witness :
    (1 : Int) ≤ 3 ∧ guessCandidates (setWordCount wdf1) 3 ≠ [] ∧
      (∃ c, (extract_lyric_to_guess wdf1 3 0 0).2 = ([c], 3) ∧
        c ∈ guessCandidates (setWordCount wdf1) 3 ∧
        min_song_duration < c.startTimeMs ∧
        (count_words c.words : Int) = 3) :=
  ⟨by decide, by decide, selectGuessLine_exact_match wdf1 3 0 (by decide) (by decide)⟩

/-- C2: `extract_lyric_to_guess` terminates within at most
`MAX_RECURSION_DEPTH = 5` recursive attempts regardless of transcript content
(the number of recursive calls from depth `d` is at most `5 - d`), and when
the attempt counter has reached the cap it short-circuits and returns the
first line of the entire unfiltered transcript with effective word count 1,
regardless of the current target. -/
theorem selectGuessLine_attempt_cap (df : List Row) (k : Int) (d pick : Nat) :
    countAttempts df k d ≤ MAX_RECURSION_DEPTH - d ∧
      (MAX_RECURSION_DEPTH ≤ d →
        extract_lyric_to_guess df k d pick = (df, (df.take 1, 1))) :=
  ⟨countAttempts_le df k d, extract_cap df k d pick⟩

theorem selectGuessLine_attempt_cap_witness :
    countAttempts wdf2 20 5 ≤ MAX_RECURSION_DEPTH - 5 ∧
      extract_lyric_to_guess wdf2 20 5 0 = (wdf2, (wdf2.take 1, 1)) :=
  ⟨(selectGuessLine_attempt_cap wdf2 20 5 0).1,
   (selectGuessLine_attempt_cap wdf2 20 5 0).2 (by decide)⟩

/-- C3: for every non-empty transcript, below the depth cap: if the
exact-match candidate set is empty and the target exceeds 1,
`extract_lyric_to_guess` returns the result of the same procedure applied to
the (word-count-annotated) transcript with target decremented and depth
incremented; if the candidate set is empty at target 1, it returns the very
first line of the entire unfiltered transcript (whatever its `startTimeMs`)
with effective word count 1, never failing. -/
theorem selectGuessLine_degrade (df : List Row) (k : Int) (d pick : Nat)
    (hdf : df ≠ []) (hd : d < MAX_RECURSION_DEPTH)
    (hc : guessCandidates (setWordCount df) k = []) :
    (1 < k → extract_lyric_to_guess df k d pick =
        extract_lyric_to_guess (setWordCount df) (k - 1) (d + 1) pick) ∧
      (k = 1 → ∃ r0 rest, df = r0 :: rest ∧
        (extract_lyric_to_guess df k d pick).2 =
          ([{ r0 with word_count := some (count_words r0.words) }], 1)) := by
  have h : ¬ MAX_RECURSION_DEPTH ≤ d := Nat.not_le_of_lt hd
  have hce : (guessCandidates (setWordCount df) k).isEmpty = true := by
    simp [hc]
  constructor
  · intro hk
    exact extract_empty_step df k d pick h hce (by omega)
  · intro hk1
    subst hk1
    cases df with
    | nil => exact absurd rfl hdf
    | cons r0 rest =>
      refine ⟨r0, rest, rfl, ?_⟩
      rw [extract_empty_base _ d pick h hce]
      rfl

theorem selectGuessLine_degrade_witness :
    (1 < (3 : Int) → extract_lyric_to_guess wdf3 3 0 0 =
        extract_lyric_to_guess (setWordCount wdf3) (3 - 1) (0 + 1) 0) ∧
      ((3 : Int) = 1 → ∃ r0 rest, wdf3 = r0 :: rest ∧
        (extract_lyric_to_guess wdf3 3 0 0).2 =
          ([{ r0 with word_count := some (count_words r0.words) }], 1)) :=
  selectGuessLine_degrade wdf3 3 0 0 (by decide) (by decide) (by decide)

/-- C4: `count_words` returns the number of whitespace-delimited tokens
obtained after replacing every apostrophe and every hyphen by a single space
— exactly this character set and no other normalisation (stated against the
independently written token counter `wordCount_spec`) — so `j'aime` counts
as 2 words and `j'aime-toi` as 3. -/
theorem count_words_correct :
    (∀ s : String, count_words s = wordCount_spec s) ∧
      count_words jaime = 2 ∧ count_words jaimeToi = 3 :=
  ⟨count_words_eq_spec, by decide, by decide⟩

/-- C5: the candidate filter keeps exactly the ordered subsequence of lines
with `startTimeMs > 20000` (it is a sublist whose members are characterised
by the threshold), and every selection `extract_lyric_to_guess` returns
either consists only of lines above the threshold or is the terminal
fallback — the first line of the (possibly annotated) transcript with
effective word count 1, which may lie at or under the threshold. -/
theorem candidateFilter_threshold_invariant (df : List Row) (k : Int)
    (d pick : Nat) :
    ((setWordCount df).filter fun r => min_song_duration < r.startTimeMs).Sublist
        (setWordCount df) ∧
      (∀ r, r ∈ ((setWordCount df).filter
            fun r => min_song_duration < r.startTimeMs) ↔
          r ∈ setWordCount df ∧ min_song_duration < r.startTimeMs) ∧
      ((∀ r ∈ (extract_lyric_to_guess df k d pick).2.1,
          min_song_duration < r.startTimeMs) ∨
        (extract_lyric_to_guess df k d pick).2 =
          ((extract_lyric_to_guess df k d pick).1.take 1, 1)) :=
  ⟨List.filter_sublist _,
   fun r => by simp [List.mem_filter],
   extract_threshold_or_fallback df k d pick⟩

/-- C6: on a non-empty transcript whose `word_count` annotations (when
present) are consistent, `extract_specific_lyric` succeeds; when a line
starts exactly at the queried time the selection consists of the exact
matches (its head starts at the queried time), otherwise the selection is
the single line minimising the absolute distance to the queried time, ties
broken in favour of the earliest line; the returned effective word count is
the actual word count of the returned head line. -/
theorem extract_specific_lyric_nearest (df : List Row) (t : Int)
    (hne : df ≠ [])
    (hwc : ∀ r ∈ df, r.word_count = none ∨
      r.word_count = some (count_words r.words)) :
    ∃ sel h n, extract_specific_lyric df t = some (sel, n) ∧
      sel.head? = some h ∧ n = count_words h.words ∧
      ((∃ r ∈ df, r.startTimeMs = t) →
        h.startTimeMs = t ∧
          proj sel = proj (df.filter fun r => r.startTimeMs == t)) ∧
      ((∀ r ∈ df, r.startTimeMs ≠ t) →
        ∃ b pre post, df = pre ++ b :: post ∧
          proj sel = [(b.startTimeMs, b.words)] ∧
          (∀ x ∈ df, dist b t ≤ dist x t) ∧
          (∀ x ∈ pre, dist b t < dist x t)) := by
  by_cases hex : ∃ r ∈ df, r.startTimeMs = t
  · obtain ⟨h0, rest, hfl⟩ : ∃ h0 rest,
        df.filter (fun r => r.startTimeMs == t) = h0 :: rest := by
      obtain ⟨r, hr, hrt⟩ := hex
      have hmem : r ∈ df.filter (fun r => r.startTimeMs == t) :=
        List.mem_filter.mpr ⟨hr, by simp [hrt]⟩
      exact List.exists_cons_of_ne_nil (List.ne_nil_of_mem hmem)
    have hh0 : h0 ∈ df.filter (fun r => r.startTimeMs == t) := by
      rw [hfl]
      exact List.mem_cons_self _ _
    have hh0df : h0 ∈ df := (List.mem_filter.mp hh0).1
    have hh0t : h0.startTimeMs = t := by
      have h2 := (List.mem_filter.mp hh0).2
      simpa using h2
    by_cases hcol : hasWordCountColumn (h0 :: rest) = true
    · have h0s : h0.word_count.isSome = true := by
        have h2 : ∀ r ∈ h0 :: rest, r.word_count.isSome = true := by
          simpa [hasWordCountColumn, List.all_eq_true] using hcol
        exact h2 h0 (List.mem_cons_self _ _)
      obtain ⟨n0, hn0⟩ := Option.isSome_iff_exists.mp h0s
      have hn0c : n0 = count_words h0.words := by
        rcases hwc h0 hh0df with hnone | hsome
        · rw [hnone] at hn0
          cases hn0
        · rw [hsome] at hn0
          exact (Option.some.injEq _ _ ▸ hn0).symm
      have hres : extract_specific_lyric df t = some (h0 :: rest, n0) := by
        simp only [extract_specific_lyric, hfl]
        simp [hcol, hn0]
      refine ⟨h0 :: rest, h0, n0, hres, rfl, hn0c, ?_, ?_⟩
      · intro _
        exact ⟨hh0t, by rw [hfl]⟩
      · intro hall
        obtain ⟨r, hr, hrt⟩ := hex
        exact absurd hrt (hall r hr)
    · have hres : extract_specific_lyric df t =
          some (setWordCount (h0 :: rest), count_words h0.words) := by
        simp only [extract_specific_lyric, hfl]
        simp [hcol, setWordCount]
      refine ⟨setWordCount (h0 :: rest),
        { h0 with word_count := some (count_words h0.words) },
        count_words h0.words, hres, ?_, rfl, ?_, ?_⟩
      · simp [setWordCount]
      · intro _
        refine ⟨hh0t, ?_⟩
        rw [proj_setWordCount, hfl]
      · intro hall
        obtain ⟨r, hr, hrt⟩ := hex
        exact absurd hrt (hall r hr)
  · have hall : ∀ r ∈ df, r.startTimeMs ≠ t := by
      intro r hr
      exact fun hrt => hex ⟨r, hr, hrt⟩
    have hfl : df.filter (fun r => r.startTimeMs == t) = [] := by
      rw [List.filter_eq_nil_iff]
      intro r hr
      simp [hall r hr]
    obtain ⟨b, pre, post, hb, hsplit, hmin, hfirst⟩ := idxminAbs_spec t df hne
    have hbdf : b ∈ df := by
      rw [hsplit]
      exact List.mem_append_right _ (List.mem_cons_self _ _)
    by_cases hcol : hasWordCountColumn [b] = true
    · have hbs : b.word_count.isSome = true := by
        have h2 : ∀ r ∈ [b], r.word_count.isSome = true := by
          simpa [hasWordCountColumn, List.all_eq_true] using hcol
        exact h2 b (List.mem_cons_self _ _)
      obtain ⟨n0, hn0⟩ := Option.isSome_iff_exists.mp hbs
      have hn0c : n0 = count_words b.words := by
        rcases hwc b hbdf with hnone | hsome
        · rw [hnone] at hn0
          cases hn0
        · rw [hsome] at hn0
          exact (Option.some.injEq _ _ ▸ hn0).symm
      have hres : extract_specific_lyric df t = some ([b], n0) := by
        simp only [extract_specific_lyric, hfl]
        simp [hb, hcol, hn0]
      refine ⟨[b], b, n0, hres, rfl, hn0c, ?_, ?_⟩
      · intro hx
        exact absurd hx hex
      · intro _
        exact ⟨b, pre, post, hsplit, rfl, hmin, hfirst⟩
    · have hres : extract_specific_lyric df t =
          some ([{ b with word_count := some (count_words b.words) }],
            count_words b.words) := by
        simp only [extract_specific_lyric, hfl]
        simp [hb, hcol, setWordCount]
      refine ⟨[{ b with word_count := some (count_words b.words) }],
        { b with word_count := some (count_words b.words) },
        count_words b.words, hres, rfl, rfl, ?_, ?_⟩
      · intro hx
        exact absurd hx hex
      · intro _
        exact ⟨b, pre, post, hsplit, rfl, hmin, hfirst⟩

theorem extract_specific_lyric_nearest_witness :
    wdf6 ≠ [] ∧
      (∀ r ∈ wdf6, r.word_count = none ∨
        r.word_count = some (count_words r.words)) ∧
      (∃ sel h n, extract_specific_lyric wdf6 6000 = some (sel, n) ∧
        sel.head? = some h ∧ n = count_words h.words ∧
        ((∃ r ∈ wdf6, r.startTimeMs = 6000) →
          h.startTimeMs = 6000 ∧
            proj sel = proj (wdf6.filter fun r => r.startTimeMs == 6000)) ∧
        ((∀ r ∈ wdf6, r.startTimeMs ≠ 6000) →
          ∃ b pre post, wdf6 = pre ++ b :: post ∧
            proj sel = [(b.startTimeMs, b.words)] ∧
            (∀ x ∈ wdf6, dist b 6000 ≤ dist x 6000) ∧
            (∀ x ∈ pre, dist b 6000 < dist x 6000))) :=
  ⟨by decide, by decide,
   extract_specific_lyric_nearest wdf6 6000 (by decide) (by decide)⟩

/-- C7: with no specific lyric time requested, calling the selection dispatch
with target word count 0 on a non-empty stored transcript returns the empty
selection with effective word count 0 and no error; the case is decided
before `extract_lyric_to_guess` is entered, so the result is the same
constant for every transcript, randomness draw and error oracle. -/
theorem target_zero_empty_selection (df : List Row) (pick : Nat) (err : Bool)
    (hdf : df ≠ []) :
    get_lyrics_select df none 0 pick err = .ok ([], 0) := by
  cases df with
  | nil => exact absurd rfl hdf
  | cons r rs => simp [get_lyrics_select]

theorem target_zero_empty_selection_witness :
    get_lyrics_select wdf7 none 0 0 false = .ok ([], 0) :=
  target_zero_empty_selection wdf7 0 false (by decide)

/-- C8: for every non-empty transcript and target word count at least 1, the
selection pipeline never surfaces a failure: whether or not the inner
`extract_lyric_to_guess` call raises (the `selector_error` oracle), the
dispatch returns a successful, non-empty selection — on error the caller
substitutes the first line with effective word count 1. -/
theorem pipeline_always_selection (df : List Row) (wtg : Int) (pick : Nat)
    (err : Bool) (hdf : df ≠ []) (hw : 1 ≤ wtg) :
    ∃ sel n, get_lyrics_select df none wtg pick err = .ok (sel, n) ∧
      sel ≠ [] := by
  cases df with
  | nil => exact absurd rfl hdf
  | cons r rs =>
    have hw0 : ¬ (wtg == 0) = true := by
      simp only [beq_iff_eq]
      omega
    cases err with
    | true =>
      refine ⟨[r], 1, ?_, by simp⟩
      simp [get_lyrics_select, hw0]
    | false =>
      refine ⟨(extract_lyric_to_guess (r :: rs) wtg 0 pick).2.1,
        (extract_lyric_to_guess (r :: rs) wtg 0 pick).2.2, ?_,
        extract_sel_ne_nil (r :: rs) wtg 0 pick (by simp)⟩
      simp [get_lyrics_select, hw0]

theorem pipeline_always_selection_witness :
    ∃ sel n, get_lyrics_select wdf8 none 5 0 false = .ok (sel, n) ∧
      sel ≠ [] :=
  pipeline_always_selection wdf8 5 0 false (by decide) (by decide)

/-- C9: `extract_lyric_to_guess` leaves the transcript it is given unchanged:
after the call the dataframe holds the same sequence of lines with the same
`startTimeMs` values and the same `words` strings as before (only the
derived `word_count` column is written). -/
theorem core_preserves_transcript (df : List Row) (k : Int) (d pick : Nat) :
    proj (extract_lyric_to_guess df k d pick).1 = proj df := by
  induction df, k, d, pick using extract_lyric_to_guess.induct with
  | case1 df k d pick h =>
    rw [extract_cap df k d pick h]
  | case2 df k d pick h df2 gc hc hk =>
    have hk1 : k = 1 := eq_of_beq hk
    subst hk1
    rw [extract_empty_base df d pick h hc]
    exact proj_setWordCount df
  | case3 df k d pick h df2 gc hc hk ih =>
    have hk1 : k ≠ 1 := fun e => hk (by simp [e])
    have ih1 : proj (extract_lyric_to_guess (setWordCount df) (k - 1)
        (d + 1) pick).1 = proj (setWordCount df) := ih
    rw [extract_empty_step df k d pick h hc hk1, ih1]
    exact proj_setWordCount df
  | case4 df k d pick h df2 gc hc =>
    rw [extract_found df k d pick h hc]
    exact proj_setWordCount df

/-- C10: when a specific lyric time is provided, the requested word count has
no influence on the selection: two dispatch calls differing only in
`words_to_guess` return identical results (same selected lines and same
returned word count). -/
theorem specific_time_ignores_words_to_guess (df : List Row) (t : Int)
    (w1 w2 : Int) (pick : Nat) (err : Bool) :
    get_lyrics_select df (some t) w1 pick err =
      get_lyrics_select df (some t) w2 pick err := rfl

end Noplp
